import Mathlib

/-!
Shallow embedding of the UDP game server (`src/lib.rs`, `src/main.rs`).

Conventions of the embedding:
* Bytes are `Nat` (each meant to lie below 256); byte buffers are `List Nat`.
* Rust `i32` values are `Int`; where the source performs `i32` arithmetic
  that can overflow, a checked operation returning `Option Int` is used
  (`none` models the arithmetic-overflow panic of the default build).
* `u32` values are `Nat`; in-range side conditions (`< 2^32`, `< 2^31`)
  appear as hypotheses where they matter.
* `HashMap<String, PlayerState>` is an association list
  `List (String × PlayerState)`; iteration order of the hash map is
  arbitrary, the list order stands in for one such order.
* `Instant` timestamps and `Duration`s are `Nat` time-units (seconds);
  `now.duration_since(t)` is truncated subtraction `now - t`.
* The external `serde_json` codecs for the payload schemas are not part of
  this repository; handlers take them as function parameters
  (`posDec`, `posEnc`, `chatDec`, `chatEnc`, `puEnc`, `snapEnc`).
* A handler returns `none` exactly when the source panics (`.unwrap()` on
  `None`/`Err`, or checked-arithmetic overflow); otherwise it returns the
  new state, the new player-number counter and the list of
  `(destination address, packet)` datagrams sent, in send order.
-/

namespace GameUdp

/-- `MessageType` from `src/lib.rs`. -/
inductive MessageType where
  | PositionUpdate
  | ChatMessage
  | Heartbeat
  | ConnectionInit
  | PlayerJoin
  | ConfirmPlayerMovement
  | PlayerLeft
  deriving DecidableEq, Repr

/-- The tag byte of each message type (`MessageType` discriminants in `src/lib.rs`). -/
def MessageType.toByte : MessageType → Nat
  | .PositionUpdate => 0x01
  | .ChatMessage => 0x02
  | .Heartbeat => 0x03
  | .ConnectionInit => 0x04
  | .PlayerJoin => 0x05
  | .ConfirmPlayerMovement => 0x06
  | .PlayerLeft => 0x07

/-- `MessageType::from_byte` from `src/lib.rs`. -/
def MessageType.from_byte : Nat → Option MessageType
  | 0x01 => some .PositionUpdate
  | 0x02 => some .ChatMessage
  | 0x03 => some .Heartbeat
  | 0x04 => some .ConnectionInit
  | 0x05 => some .PlayerJoin
  | 0x06 => some .ConfirmPlayerMovement
  | 0x07 => some .PlayerLeft
  | _ => none

/-- `Position` from `src/lib.rs` (`i32` fields modelled as `Int`). -/
structure Position where
  x : Int
  y : Int
  z : Int
  deriving DecidableEq, Repr

/-- `Chat` from `src/lib.rs`. -/
structure Chat where
  text : String
  deriving DecidableEq, Repr

/-- `GamePacket` from `src/lib.rs` (`version : u8`, `seq_num : u32`, payload raw bytes). -/
structure GamePacket where
  msg_type : MessageType
  version : Nat
  seq_num : Nat
  payload : List Nat
  deriving DecidableEq, Repr

/-- `GamePacket::new` from `src/lib.rs`: version is always 1. -/
def GamePacket.new (msg_type : MessageType) (seq_num : Nat) (payload : List Nat) : GamePacket :=
  { msg_type := msg_type, version := 1, seq_num := seq_num, payload := payload }

/-- Big-endian bytes of a `u32` (`BytesMut::put_u32`). -/
def u32be (n : Nat) : List Nat :=
  [n / 2 ^ 24 % 256, n / 2 ^ 16 % 256, n / 2 ^ 8 % 256, n % 256]

/-- `GamePacket::serialize` from `src/lib.rs`: tag byte, version byte,
4-byte big-endian sequence number, then the raw payload. -/
def GamePacket.serialize (p : GamePacket) : List Nat :=
  p.msg_type.toByte :: p.version :: u32be p.seq_num ++ p.payload

/-- `GamePacket::deserialize` from `src/lib.rs`: `none` if fewer than 6 bytes
or the tag byte is unknown; otherwise the header fields plus all remaining
bytes as payload. -/
def GamePacket.deserialize : List Nat → Option GamePacket
  | t :: v :: b0 :: b1 :: b2 :: b3 :: rest =>
    match MessageType.from_byte t with
    | none => none
    | some mt =>
      some { msg_type := mt, version := v,
             seq_num := b0 * 2 ^ 24 + b1 * 2 ^ 16 + b2 * 2 ^ 8 + b3,
             payload := rest }
  | _ => none

/-- `PlayerState` from `src/lib.rs`. -/
structure PlayerState where
  position : Position
  last_heartbeat : Nat
  player_number : Nat
  deriving DecidableEq, Repr

/-- `ServerState` from `src/lib.rs`: the session registry plus the fixed
world bounds `(width, height)`. -/
structure ServerState where
  players : List (String × PlayerState)
  board_size : Nat × Nat
  deriving DecidableEq, Repr

/-- `str::as_bytes` on a session identity. Identities are socket-address
strings (ASCII), so the UTF-8 bytes are the character codepoints. -/
def strBytes (s : String) : List Nat :=
  s.data.map Char.toNat

/-- `HashMap::get` / `HashMap::get_mut` lookup. -/
def lookupP (players : List (String × PlayerState)) (k : String) : Option PlayerState :=
  players.lookup k

/-- `HashMap::insert`: overwrites the value when the key is present,
otherwise adds a fresh entry. -/
def insertP (k : String) (v : PlayerState) (players : List (String × PlayerState)) :
    List (String × PlayerState) :=
  if (players.lookup k).isSome then
    players.map (fun p => if p.1 = k then (k, v) else p)
  else
    players ++ [(k, v)]

/-- `u32 as i32` cast (two's-complement reinterpretation). -/
def u32ToI32 (n : Nat) : Int :=
  if n < 2 ^ 31 then (n : Int) else (n : Int) - 2 ^ 32

/-- Checked `i32` subtraction: `none` models the overflow panic of the
default (checked) build on `position.y - 2`. -/
def subI32 (a b : Int) : Option Int :=
  if -(2 ^ 31) ≤ a - b ∧ a - b < 2 ^ 31 then some (a - b) else none

/-- The movement validator: the two bounds checks of the `PositionUpdate`
handler in `src/main.rs` (lines 107–132). `some false` = rejected (both
source branches send the identical corrective reply, so they are folded
into one value), `some true` = accepted, `none` = arithmetic panic in
`position.y - 2`. Rust `/` on `i32` truncates toward zero (`Int.tdiv`). -/
def validateMove (W H : Nat) (position : Position) : Option Bool :=
  if position.x < Int.tdiv (-(u32ToI32 W)) 2 ∨ position.x ≥ Int.tdiv (u32ToI32 W) 2 then
    some false
  else
    match subI32 position.y 2 with
    | none => none
    | some y2 =>
      if y2 < Int.tdiv (-(u32ToI32 H)) 2 ∨ position.y ≥ Int.tdiv (u32ToI32 H) 2 then
        some false
      else some true

/-- The `MessageType::PositionUpdate` arm of the dispatcher in
`src/main.rs` (lines 98–175). `none` models a panic: the `.unwrap()` on
`Position::deserialize` (line 99), the `.unwrap()` on the registry lookup
of an unregistered sender (line 104, marked `FIXME` in the source), or
checked-arithmetic overflow in the bounds check. On success it returns the
new state, the new player-number counter, and the datagrams sent. -/
def positionUpdateHandler (posDec : List Nat → Option Position) (posEnc : Position → List Nat)
    (puEnc : String → Position → List Nat) (now : Nat) (sender : String) (pkt : GamePacket)
    (st : ServerState) (counter : Nat) :
    Option (ServerState × Nat × List (String × GamePacket)) :=
  match posDec pkt.payload with
  | none => none
  | some position =>
    match lookupP st.players sender with
    | none => none
    | some cur =>
      match validateMove st.board_size.1 st.board_size.2 position with
      | none => none
      | some false =>
        some (st, counter,
          [(sender, GamePacket.new .ConfirmPlayerMovement pkt.seq_num (posEnc cur.position))])
      | some true =>
        let updated : List (String × PlayerState) × Nat :=
          match lookupP st.players sender with
          | some _ =>
            (st.players.map (fun p =>
                if p.1 = sender then
                  (p.1, { p.2 with position := position, last_heartbeat := now })
                else p),
             counter)
          | none => (st.players ++ [(sender, ⟨position, now, counter⟩)], counter + 1)
        let updatePkt := GamePacket.new .PositionUpdate pkt.seq_num (puEnc sender position)
        let confirmPkt := GamePacket.new .ConfirmPlayerMovement pkt.seq_num (posEnc position)
        some (⟨updated.1, st.board_size⟩, updated.2,
          updated.1.map (fun p =>
            if p.1 ≠ sender then (p.1, updatePkt) else (p.1, confirmPkt)))

/-- The `MessageType::ChatMessage` arm of the dispatcher in `src/main.rs`
(lines 176–192): a payload that fails to decode is dropped; otherwise the
re-encoded chat is sent to every current session (no exclusion) with the
inbound sequence number; the registry is never touched. -/
def chatMessageHandler (chatDec : List Nat → Option Chat) (chatEnc : Chat → List Nat)
    (pkt : GamePacket) (st : ServerState) :
    ServerState × List (String × GamePacket) :=
  match chatDec pkt.payload with
  | none => (st, [])
  | some chat =>
    (st, st.players.map (fun p => (p.1, GamePacket.new .ChatMessage pkt.seq_num (chatEnc chat))))

/-- The welcome chat text sent by the `ConnectionInit` handler. -/
def welcomeText : String := "Welcome to the server!"

/-- The `MessageType::ConnectionInit` arm of the dispatcher in
`src/main.rs` (lines 200–248): unconditional `HashMap::insert` of a fresh
session at the origin with the current counter value, counter increment,
snapshot reply to the sender, `PlayerJoin` to every other session of the
post-insert state, then the welcome chat to the sender. -/
def connectionInitHandler (snapEnc : ServerState → List Nat) (chatEnc : Chat → List Nat)
    (now : Nat) (sender : String) (pkt : GamePacket) (st : ServerState) (counter : Nat) :
    ServerState × Nat × List (String × GamePacket) :=
  let st1 : ServerState := ⟨insertP sender ⟨⟨0, 0, 0⟩, now, counter⟩ st.players, st.board_size⟩
  let reply := GamePacket.new .ConnectionInit pkt.seq_num (snapEnc st1)
  let joinPkt := GamePacket.new .PlayerJoin pkt.seq_num (strBytes sender)
  let welcome := GamePacket.new .ChatMessage pkt.seq_num (chatEnc ⟨welcomeText⟩)
  (st1, counter + 1,
    (sender, reply) ::
      ((st1.players.filter (fun p => p.1 ≠ sender)).map (fun p => (p.1, joinPkt))
        ++ [(sender, welcome)]))

/-- `now.duration_since(last_heartbeat) > Duration::from_secs(10)`
(the staleness test of the cleanup task, `src/main.rs` lines 38 and 56). -/
def isStale (now : Nat) (ps : PlayerState) : Bool :=
  10 < now - ps.last_heartbeat

/-- One pass of the cleanup (Reaper) task, `src/main.rs` lines 30–62:
collect the stale identities, then for each one send a `PlayerLeft` packet
(sequence number 0, payload the identity's bytes) to every player of the
*pre-removal* registry except the departing one, then retain only the
non-stale players. Returns (datagrams sent, remaining players). -/
def reapStale (now : Nat) (players : List (String × PlayerState)) :
    List (String × GamePacket) × List (String × PlayerState) :=
  let ids := (players.filter (fun p => isStale now p.2)).map (fun p => p.1)
  let msgs := ids.flatMap (fun rid =>
    (players.filter (fun p => p.1 ≠ rid)).map
      (fun p => (p.1, GamePacket.new .PlayerLeft 0 (strBytes rid))))
  (msgs, players.filter (fun p => !(isStale now p.2)))

/-- One pass of the ping task, `src/main.rs` lines 74–85: an empty
`Heartbeat` packet with sequence number 0 to every current player. -/
def pingAll (players : List (String × PlayerState)) : List (String × GamePacket) :=
  players.map (fun p => (p.1, GamePacket.new .Heartbeat 0 []))

/-- The per-removal send loop of the cleanup task, `src/main.rs` lines
49–53: iterate the players, skip the departing identity `rid`, and
`send_to(..).unwrap()` each datagram. `sendOk` is the transport outcome
per destination; `none` models the panic of `.unwrap()` on a failed send,
otherwise the addresses actually sent to, in order. -/
def cleanupBroadcastLoop (sendOk : String → Bool) (rid : String) :
    List (String × PlayerState) → Option (List String)
  | [] => some []
  | p :: rest =>
    if p.1 ≠ rid then
      if sendOk p.1 then (cleanupBroadcastLoop sendOk rid rest).map (fun l => p.1 :: l)
      else none
    else cleanupBroadcastLoop sendOk rid rest

/-! Concrete data used by witnesses and counterexamples. -/

def addrA : String := "10.0.0.1:4001"

def addrB : String := "10.0.0.2:4002"

def demoPos : Position := ⟨5, 6, 7⟩

def demoPlayers : List (String × PlayerState) :=
  [(addrA, ⟨demoPos, 3, 0⟩), (addrB, ⟨⟨1, 1, 1⟩, 20, 1⟩)]

def demoSt : ServerState := ⟨demoPlayers, (80, 24)⟩

theorem from_byte_toByte (mt : MessageType) : MessageType.from_byte mt.toByte = some mt := by
  cases mt <;> rfl

theorem lookup_replace_self (k : String) (v : PlayerState) (l : List (String × PlayerState))
    (h : (l.lookup k).isSome) :
    (l.map (fun p => if p.1 = k then (k, v) else p)).lookup k = some v := by
  induction l with
  | nil => simp [List.lookup] at h
  | cons e t ih =>
    cases e with
    | mk e1 e2 =>
      by_cases hk : e1 = k
      · subst hk
        have hr : (if ((e1, e2) : String × PlayerState).1 = e1 then (e1, v) else (e1, e2))
            = (e1, v) := if_pos rfl
        simp only [List.map_cons, hr]
        simp [List.lookup]
      · have hb : (k == e1) = false := beq_eq_false_iff_ne.mpr (Ne.symm hk)
        have hr : (if ((e1, e2) : String × PlayerState).1 = k then (k, v) else (e1, e2))
            = (e1, e2) := if_neg hk
        simp only [List.map_cons, hr]
        simp only [List.lookup, hb] at h ⊢
        exact ih h

theorem lookup_replace_other (k a : String) (v : PlayerState)
    (l : List (String × PlayerState)) (ha : a ≠ k) :
    (l.map (fun p => if p.1 = k then (k, v) else p)).lookup a = l.lookup a := by
  induction l with
  | nil => rfl
  | cons e t ih =>
    cases e with
    | mk e1 e2 =>
      by_cases hk : e1 = k
      · subst hk
        have hb : (a == e1) = false := beq_eq_false_iff_ne.mpr ha
        have hr : (if ((e1, e2) : String × PlayerState).1 = e1 then (e1, v) else (e1, e2))
            = (e1, v) := if_pos rfl
        simp only [List.map_cons, hr]
        simp only [List.lookup, hb]
        exact ih
      · have hr : (if ((e1, e2) : String × PlayerState).1 = k then (k, v) else (e1, e2))
            = (e1, e2) := if_neg hk
        simp only [List.map_cons, hr]
        simp only [List.lookup]
        cases hae : (a == e1) <;> simp [ih]

theorem lookup_append_self (k : String) (v : PlayerState) (l : List (String × PlayerState))
    (h : l.lookup k = none) :
    (l ++ [(k, v)]).lookup k = some v := by
  induction l with
  | nil => simp [List.lookup]
  | cons e t ih =>
    cases e with
    | mk e1 e2 =>
      simp only [List.lookup] at h
      cases hke : (k == e1) with
      | true => simp [hke] at h
      | false =>
        simp only [List.cons_append, List.lookup, hke]
        exact ih (by simpa [hke] using h)

theorem lookup_append_other (k a : String) (v : PlayerState)
    (l : List (String × PlayerState)) (ha : a ≠ k) :
    (l ++ [(k, v)]).lookup a = l.lookup a := by
  induction l with
  | nil =>
    have hb : (a == k) = false := beq_eq_false_iff_ne.mpr ha
    simp [List.lookup, hb]
  | cons e t ih =>
    cases e with
    | mk e1 e2 =>
      simp only [List.cons_append, List.lookup]
      cases hae : (a == e1) <;> simp [ih]

/-- `HashMap::insert` stores the new value under the key. -/
theorem insertP_lookup_self (k : String) (v : PlayerState) (l : List (String × PlayerState)) :
    (insertP k v l).lookup k = some v := by
  unfold insertP
  by_cases h : (l.lookup k).isSome
  · rw [if_pos h]
    exact lookup_replace_self k v l h
  · rw [if_neg h]
    exact lookup_append_self k v l (by
      cases hl : l.lookup k
      · rfl
      · simp [hl] at h)

/-- `HashMap::insert` leaves every other key unchanged. -/
theorem insertP_lookup_other (k a : String) (v : PlayerState)
    (l : List (String × PlayerState)) (ha : a ≠ k) :
    (insertP k v l).lookup a = l.lookup a := by
  unfold insertP
  by_cases h : (l.lookup k).isSome
  · rw [if_pos h]
    exact lookup_replace_other k a v l ha
  · rw [if_neg h]
    exact lookup_append_other k a v l ha

/-- Round-trip of the binary header for the sequence number. -/
theorem u32be_val (n : Nat) (h : n < 2 ^ 32) :
    n / 2 ^ 24 % 256 * 2 ^ 24 + n / 2 ^ 16 % 256 * 2 ^ 16 + n / 2 ^ 8 % 256 * 2 ^ 8 + n % 256
      = n := by
  omega

/-- C8: for every packet (any message type, any version byte, any `u32`
sequence number, any payload bytes), `deserialize (serialize P)` returns a
packet whose `msg_type`, `version`, `seq_num` and `payload` equal those of
`P` exactly. -/
theorem deserialize_serialize (p : GamePacket)
    (hv : p.version < 256) (hs : p.seq_num < 2 ^ 32) :
    GamePacket.deserialize p.serialize = some p := by
  cases p with
  | mk mt v s pl =>
    simp only [GamePacket.serialize, u32be, GamePacket.deserialize, List.cons_append,
      List.nil_append, from_byte_toByte]
    simp only at hs
    congr 1
    congr 1
    omega

theorem strBytes_inj {s t : String} (h : strBytes s = strBytes t) : s = t := by
  apply String.ext
  apply List.map_injective_iff.mpr _ h
  intro a b hab
  exact Char.ext (UInt32.ext hab)

/-- C1: a `PositionUpdate` whose payload decodes fine but whose sender has
no registry entry makes the handler panic (`none`) — the `.unwrap()` on the
lookup at `src/main.rs` line 104 (marked `FIXME`) aborts the process
instead of implicitly registering the sender at the origin. -/
theorem positionUpdate_unknown_sender_crash :
    positionUpdateHandler (fun _ => some ⟨0, 0, 0⟩) (fun _ => []) (fun _ _ => [])
      5 addrA (GamePacket.new .PositionUpdate 7 [])
      ⟨[], (80, 24)⟩ 0 = none := rfl

/-- C2: a `PositionUpdate` whose payload does not decode as a `Position`
makes the handler panic (`none`, the `.unwrap()` at `src/main.rs` line 99)
even when the sender is registered, instead of dropping the packet; a
`ChatMessage` whose payload does not decode is dropped with no reply and
no state change, as the claim says. -/
theorem payload_decode_failure_behavior :
    positionUpdateHandler (fun _ => none) (fun _ => []) (fun _ _ => [])
      5 addrA (GamePacket.new .PositionUpdate 7 [0]) demoSt 2 = none ∧
    chatMessageHandler (fun _ => none) (fun _ => [])
      (GamePacket.new .ChatMessage 7 [0]) demoSt = (demoSt, []) :=
  ⟨rfl, rfl⟩

/-- C3: in the Reaper's `PlayerLeft` fan-out a failed send panics
(`.unwrap()`, `src/main.rs` line 51): with two recipients whose first send
fails, the loop returns `none` (process abort) and the second recipient is
never sent to, although with a healthy transport both would be
(second conjunct) — a per-recipient transport error does abort the
broadcast and is fatal, contrary to the claim. -/
theorem send_failure_aborts_cleanup_broadcast :
    cleanupBroadcastLoop (fun a => a != addrA) addrB demoPlayers = none ∧
    cleanupBroadcastLoop (fun _ => true) addrB demoPlayers = some [addrA] ∧
    cleanupBroadcastLoop (fun _ => true) "10.0.0.3:4003" demoPlayers
      = some [addrA, addrB] := by
  refine ⟨?_, ?_, ?_⟩ <;> decide

/-- Counterexample to C4: a `ConnectionInit` from the already-registered
identity `addrA` (stored session: position `demoPos`, heartbeat 3,
player number 0; counter 1) does not leave the existing session unchanged:
the entry is overwritten with the origin position and player number 1, and
the counter is consumed (1 → 2). -/
theorem connectionInit_not_idempotent :
    (lookupP (connectionInitHandler (fun _ => []) (fun _ => []) 9 addrA
        (GamePacket.new .ConnectionInit 3 []) demoSt 1).1.players addrA
      ≠ some ⟨demoPos, 3, 0⟩) ∧
    lookupP (connectionInitHandler (fun _ => []) (fun _ => []) 9 addrA
        (GamePacket.new .ConnectionInit 3 []) demoSt 1).1.players addrA
      = some ⟨⟨0, 0, 0⟩, 9, 1⟩ ∧
    (connectionInitHandler (fun _ => []) (fun _ => []) 9 addrA
        (GamePacket.new .ConnectionInit 3 []) demoSt 1).2.1 = 2 := by
  refine ⟨?_, ?_, ?_⟩ <;> decide

/-- C4 as amended: `ConnectionInit` unconditionally inserts a brand-new
Session at the origin carrying the current counter value (overwriting any
existing entry for that identity), always consumes a counter value, and
leaves the sessions of all other identities unchanged. -/
theorem connectionInit_overwrites (snapEnc : ServerState → List Nat)
    (chatEnc : Chat → List Nat) (now : Nat) (sender : String) (pkt : GamePacket)
    (st : ServerState) (counter : Nat) :
    lookupP (connectionInitHandler snapEnc chatEnc now sender pkt st counter).1.players sender
      = some ⟨⟨0, 0, 0⟩, now, counter⟩ ∧
    (connectionInitHandler snapEnc chatEnc now sender pkt st counter).2.1 = counter + 1 ∧
    (∀ a, a ≠ sender →
      lookupP (connectionInitHandler snapEnc chatEnc now sender pkt st counter).1.players a
        = lookupP st.players a) ∧
    (connectionInitHandler snapEnc chatEnc now sender pkt st counter).1.board_size
      = st.board_size := by
  refine ⟨?_, rfl, ?_, rfl⟩
  · exact insertP_lookup_self sender _ st.players
  · intro a ha
    exact insertP_lookup_other sender a _ st.players ha

/-- Witness for the amended C4 at a concrete registry. -/
theorem connectionInit_overwrites_witness :
    lookupP (connectionInitHandler (fun _ => []) (fun _ => []) 9 addrA
        (GamePacket.new .ConnectionInit 3 []) demoSt 7).1.players addrB
      = lookupP demoSt.players addrB :=
  (connectionInit_overwrites (fun _ => []) (fun _ => []) 9 addrA
      (GamePacket.new .ConnectionInit 3 []) demoSt 7).2.2.1 addrB (by decide)

/-- Rust `i32` division truncates toward zero; on a cast `u32` it is
Nat floor division. -/
theorem tdiv_cast_two (W : Nat) : Int.tdiv ((W : Int)) 2 = ((W / 2 : Nat) : Int) := by
  rw [Int.tdiv_eq_ediv (by positivity) (by norm_num)]
  norm_num [Int.ofNat_ediv]

theorem tdiv_neg_cast_two (W : Nat) :
    Int.tdiv (-((W : Int))) 2 = -(((W / 2 : Nat)) : Int) := by
  rw [Int.neg_tdiv, tdiv_cast_two]

/-- C5: for world bounds that fit in `i32` (they come from the `u16`
terminal size), the movement validator accepts a candidate iff
`-floor(W/2) ≤ x < floor(W/2)` and `-floor(H/2) + 2 ≤ y < floor(H/2)`. -/
theorem validator_bounds (W H : Nat) (hW : W < 2 ^ 31) (hH : H < 2 ^ 31) (p : Position) :
    validateMove W H p = some true ↔
      (-(((W / 2 : Nat)) : Int) ≤ p.x ∧ p.x < ((W / 2 : Nat) : Int) ∧
       -(((H / 2 : Nat)) : Int) + 2 ≤ p.y ∧ p.y < ((H / 2 : Nat) : Int)) := by
  have hWc : u32ToI32 W = (W : Int) := if_pos hW
  have hHc : u32ToI32 H = (H : Int) := if_pos hH
  unfold validateMove
  rw [hWc, hHc, tdiv_neg_cast_two, tdiv_cast_two, tdiv_neg_cast_two, tdiv_cast_two]
  by_cases hx : p.x < -(((W / 2 : Nat)) : Int) ∨ p.x ≥ ((W / 2 : Nat) : Int)
  · rw [if_pos hx]
    constructor
    · intro hcontra
      exact absurd hcontra (by simp)
    · rintro ⟨h1, h2, -, -⟩
      rcases hx with hx | hx <;> omega
  · rw [if_neg hx]
    push_neg at hx
    cases hsub : subI32 p.y 2 with
    | none =>
      unfold subI32 at hsub
      rw [ite_eq_right_iff] at hsub
      constructor
      · intro hcontra
        exact absurd hcontra (by simp)
      · rintro ⟨-, -, h3, h4⟩
        exfalso
        by_cases hr : -(2 ^ 31) ≤ p.y - 2 ∧ p.y - 2 < 2 ^ 31
        · exact absurd (hsub hr) (by simp)
        · push_neg at hr
          omega
    | some y2 =>
      have hy2 : y2 = p.y - 2 := by
        unfold subI32 at hsub
        by_cases hr : -(2 ^ 31) ≤ p.y - 2 ∧ p.y - 2 < 2 ^ 31
        · rw [if_pos hr] at hsub
          exact (Option.some.inj hsub).symm
        · rw [if_neg hr] at hsub
          exact absurd hsub (by simp)
      subst hy2
      dsimp only
      by_cases hy : p.y - 2 < -(((H / 2 : Nat)) : Int) ∨ p.y ≥ ((H / 2 : Nat) : Int)
      · rw [if_pos hy]
        constructor
        · intro hcontra
          exact absurd hcontra (by simp)
        · rintro ⟨-, -, h3, h4⟩
          rcases hy with hy | hy <;> omega
      · rw [if_neg hy]
        push_neg at hy
        constructor
        · intro
          exact ⟨hx.1, hx.2, by omega, hy.2⟩
        · intro
          rfl

/-- Witness for C5 with bounds (80, 24): `x = -40, y = -10` is accepted,
`x = 40` is rejected, `y = -12` is rejected. -/
theorem validator_bounds_witness :
    validateMove 80 24 ⟨-40, -10, 0⟩ = some true ∧
    validateMove 80 24 ⟨40, -10, 0⟩ = some false ∧
    validateMove 80 24 ⟨-40, -12, 0⟩ = some false :=
  ⟨(validator_bounds 80 24 (by norm_num) (by norm_num) ⟨-40, -10, 0⟩).mpr (by norm_num),
   by decide, by decide⟩

/-- C6: a `PositionUpdate` from a registered sender whose candidate the
validator rejects leaves the whole state and the counter unchanged and
sends exactly one datagram: a `ConfirmPlayerMovement` to the sender
carrying the session's stored (last accepted) position; nothing is
broadcast to anyone else. -/
theorem positionUpdate_rejection (posDec : List Nat → Option Position)
    (posEnc : Position → List Nat) (puEnc : String → Position → List Nat)
    (now : Nat) (sender : String) (pkt : GamePacket) (st : ServerState) (counter : Nat)
    (cur : PlayerState) (position : Position)
    (hdec : posDec pkt.payload = some position)
    (hmem : lookupP st.players sender = some cur)
    (hrej : validateMove st.board_size.1 st.board_size.2 position = some false) :
    positionUpdateHandler posDec posEnc puEnc now sender pkt st counter =
      some (st, counter,
        [(sender, GamePacket.new .ConfirmPlayerMovement pkt.seq_num (posEnc cur.position))]) := by
  simp only [positionUpdateHandler, hdec, hmem, hrej]

def demoPosDec : List Nat → Option Position := fun _ => some ⟨40, 0, 0⟩

def demoPosEnc : Position → List Nat := fun q => [q.x.natAbs]

/-- Witness for C6: with bounds (80, 24), the candidate `x = 40` is
rejected and the sender gets back its stored position `demoPos`. -/
theorem positionUpdate_rejection_witness :
    positionUpdateHandler demoPosDec demoPosEnc (fun _ _ => []) 5 addrA
      (GamePacket.new .PositionUpdate 7 [1]) demoSt 3
      = some (demoSt, 3, [(addrA, GamePacket.new .ConfirmPlayerMovement 7 [5])]) :=
  positionUpdate_rejection demoPosDec demoPosEnc (fun _ _ => []) 5 addrA
    (GamePacket.new .PositionUpdate 7 [1]) demoSt 3 ⟨demoPos, 3, 0⟩ ⟨40, 0, 0⟩
    rfl (by decide) (by decide)

/-- C7: a Reap pass keeps exactly the sessions whose `lastHeartbeat` is at
most 10 time-units old (so it removes exactly the stale ones); for each
stale session, every *other* session of the pre-removal membership is sent
a `PlayerLeft` packet naming it; and no session ever receives the
`PlayerLeft` packet naming itself. -/
theorem reap_behavior (now : Nat) (players : List (String × PlayerState)) :
    (∀ a ps, (a, ps) ∈ (reapStale now players).2 ↔
      ((a, ps) ∈ players ∧ ¬ 10 < now - ps.last_heartbeat)) ∧
    (∀ r rs, (r, rs) ∈ players → 10 < now - rs.last_heartbeat →
      ∀ o os, (o, os) ∈ players → o ≠ r →
        (o, GamePacket.new .PlayerLeft 0 (strBytes r)) ∈ (reapStale now players).1) ∧
    (∀ r, (r, GamePacket.new .PlayerLeft 0 (strBytes r)) ∉ (reapStale now players).1) := by
  refine ⟨?_, ?_, ?_⟩
  · intro a ps
    simp [reapStale, List.mem_filter, isStale]
  · intro r rs hr hstale o os ho hne
    simp only [reapStale, List.mem_flatMap]
    refine ⟨r, ?_, ?_⟩
    · simp only [List.mem_map]
      exact ⟨(r, rs), by simp [List.mem_filter, hr, isStale, hstale], rfl⟩
    · simp only [List.mem_map]
      exact ⟨(o, os), by simp [List.mem_filter, ho, hne], rfl⟩
  · intro r hmem
    simp only [reapStale, List.mem_flatMap, List.mem_map] at hmem
    obtain ⟨rid, -, p, hp, hpe⟩ := hmem
    have h1 : p.1 = r := congrArg Prod.fst hpe
    have h2 : strBytes rid = strBytes r := by
      have := congrArg (fun q => (Prod.snd q).payload) hpe
      simpa [GamePacket.new] using this
    have h3 : rid = r := strBytes_inj h2
    simp only [List.mem_filter, decide_eq_true_eq] at hp
    exact hp.2 (h1.trans h3.symm)

/-- Witness for C7: at time 20 the session `addrA` (heartbeat 3) is stale
while `addrB` (heartbeat 20) is not; `addrB` receives the `PlayerLeft`
naming `addrA`, `addrB` survives, and `addrA` gets nothing about itself. -/
theorem reap_behavior_witness :
    (addrB, GamePacket.new .PlayerLeft 0 (strBytes addrA)) ∈ (reapStale 20 demoPlayers).1 ∧
    ((addrB, (⟨⟨1, 1, 1⟩, 20, 1⟩ : PlayerState)) ∈ (reapStale 20 demoPlayers).2 ∧
      ¬ (addrA, (⟨demoPos, 3, 0⟩ : PlayerState)) ∈ (reapStale 20 demoPlayers).2) ∧
    (addrA, GamePacket.new .PlayerLeft 0 (strBytes addrA)) ∉ (reapStale 20 demoPlayers).1 :=
  ⟨(reap_behavior 20 demoPlayers).2.1 addrA ⟨demoPos, 3, 0⟩ (by decide) (by decide)
      addrB ⟨⟨1, 1, 1⟩, 20, 1⟩ (by decide) (by decide),
   ⟨((reap_behavior 20 demoPlayers).1 addrB ⟨⟨1, 1, 1⟩, 20, 1⟩).mpr ⟨by decide, by decide⟩,
    fun h => absurd (((reap_behavior 20 demoPlayers).1 addrA ⟨demoPos, 3, 0⟩).mp h).2
      (by decide)⟩,
   (reap_behavior 20 demoPlayers).2.2 addrA⟩

/-- C9: a `ChatMessage` whose payload decodes leaves the state (and so
every session's `lastHeartbeat`) unchanged, and sends to every current
session — the sender included when it is one — a `ChatMessage` carrying
the re-encoded same text and the unchanged inbound sequence number. -/
theorem chat_broadcast (chatDec : List Nat → Option Chat) (chatEnc : Chat → List Nat)
    (pkt : GamePacket) (st : ServerState) (chat : Chat)
    (hdec : chatDec pkt.payload = some chat) :
    (chatMessageHandler chatDec chatEnc pkt st).1 = st ∧
    (chatMessageHandler chatDec chatEnc pkt st).2 =
      st.players.map (fun p => (p.1, GamePacket.new .ChatMessage pkt.seq_num (chatEnc chat))) ∧
    ∀ a ps, (a, ps) ∈ st.players →
      (a, GamePacket.new .ChatMessage pkt.seq_num (chatEnc chat))
        ∈ (chatMessageHandler chatDec chatEnc pkt st).2 := by
  refine ⟨by simp [chatMessageHandler, hdec], by simp [chatMessageHandler, hdec], ?_⟩
  intro a ps hmem
  simp only [chatMessageHandler, hdec, List.mem_map]
  exact ⟨(a, ps), hmem, rfl⟩

def demoChat : Chat := ⟨welcomeText⟩

/-- Witness for C9 at a concrete registry: the sender `addrA` is among the
recipients and the state is untouched. -/
theorem chat_broadcast_witness :
    (chatMessageHandler (fun _ => some demoChat) (fun _ => [3])
        (GamePacket.new .ChatMessage 9 [1]) demoSt).1 = demoSt ∧
    (addrA, GamePacket.new .ChatMessage 9 [3])
      ∈ (chatMessageHandler (fun _ => some demoChat) (fun _ => [3])
          (GamePacket.new .ChatMessage 9 [1]) demoSt).2 :=
  ⟨(chat_broadcast (fun _ => some demoChat) (fun _ => [3])
      (GamePacket.new .ChatMessage 9 [1]) demoSt demoChat rfl).1,
   (chat_broadcast (fun _ => some demoChat) (fun _ => [3])
      (GamePacket.new .ChatMessage 9 [1]) demoSt demoChat rfl).2.2
     addrA ⟨demoPos, 3, 0⟩ (by decide)⟩

/-- C10: every datagram produced while handling an inbound packet (the
rejection reply, the accepted-move broadcast and confirmation, the chat
fan-out, the snapshot reply, `PlayerJoin` fan-out and welcome chat) carries
the inbound sequence number unchanged, while every timer-driven datagram
(the Reaper's `PlayerLeft` and the ping task's `Heartbeat`) carries
sequence number 0. -/
theorem seq_num_policy (posDec : List Nat → Option Position) (posEnc : Position → List Nat)
    (puEnc : String → Position → List Nat) (chatDec : List Nat → Option Chat)
    (chatEnc : Chat → List Nat) (snapEnc : ServerState → List Nat)
    (now : Nat) (sender : String) (pkt : GamePacket) (st : ServerState) (counter : Nat) :
    (∀ st1 c1 sent,
        positionUpdateHandler posDec posEnc puEnc now sender pkt st counter
          = some (st1, c1, sent) →
        ∀ m ∈ sent, (Prod.snd m).seq_num = pkt.seq_num) ∧
    (∀ m ∈ (chatMessageHandler chatDec chatEnc pkt st).2,
        (Prod.snd m).seq_num = pkt.seq_num) ∧
    (∀ m ∈ (connectionInitHandler snapEnc chatEnc now sender pkt st counter).2.2,
        (Prod.snd m).seq_num = pkt.seq_num) ∧
    (∀ m ∈ (reapStale now st.players).1, (Prod.snd m).seq_num = 0) ∧
    (∀ m ∈ pingAll st.players, (Prod.snd m).seq_num = 0) := by
  refine ⟨?_, ?_, ?_, ?_, ?_⟩
  · intro st1 c1 sent h m hm
    cases hd : posDec pkt.payload with
    | none => simp [positionUpdateHandler, hd] at h
    | some position =>
      cases hl : lookupP st.players sender with
      | none => simp [positionUpdateHandler, hd, hl] at h
      | some cur =>
        cases hv : validateMove st.board_size.1 st.board_size.2 position with
        | none => simp [positionUpdateHandler, hd, hl, hv] at h
        | some b =>
          cases b with
          | false =>
            simp only [positionUpdateHandler, hd, hl, hv, Option.some.injEq,
              Prod.mk.injEq] at h
            rw [← h.2.2] at hm
            simp only [List.mem_singleton] at hm
            subst hm
            rfl
          | true =>
            simp only [positionUpdateHandler, hd, hl, hv, Option.some.injEq,
              Prod.mk.injEq] at h
            rw [← h.2.2] at hm
            simp only [List.mem_map] at hm
            obtain ⟨p, -, he⟩ := hm
            by_cases hp : p.1 ≠ sender
            · rw [if_pos hp] at he
              subst he
              rfl
            · rw [if_neg hp] at he
              subst he
              rfl
  · intro m hm
    cases hd : chatDec pkt.payload with
    | none => simp [chatMessageHandler, hd] at hm
    | some chat =>
      simp only [chatMessageHandler, hd, List.mem_map] at hm
      obtain ⟨p, -, he⟩ := hm
      subst he
      rfl
  · intro m hm
    simp only [connectionInitHandler, List.mem_cons, List.mem_append, List.mem_map,
      List.mem_singleton] at hm
    rcases hm with hm | ⟨p, -, hm⟩ | hm | hm
    · subst hm
      rfl
    · subst hm
      rfl
    · subst hm
      rfl
    · simp at hm
  · intro m hm
    simp only [reapStale, List.mem_flatMap, List.mem_map] at hm
    obtain ⟨rid, -, p, -, he⟩ := hm
    subst he
    rfl
  · intro m hm
    simp only [pingAll, List.mem_map] at hm
    obtain ⟨p, -, he⟩ := hm
    subst he
    rfl

/-- Witness for C10: the ping task's Heartbeat to `addrB` carries sequence
number 0. -/
theorem seq_num_policy_witness :
    (addrB, GamePacket.new .Heartbeat 0 []) ∈ pingAll demoPlayers ∧
    (Prod.snd ((addrB, GamePacket.new .Heartbeat 0 []) : String × GamePacket)).seq_num = 0 :=
  ⟨by decide,
   (seq_num_policy (fun _ => none) (fun _ => []) (fun _ _ => []) (fun _ => none)
       (fun _ => []) (fun _ => []) 5 addrA (GamePacket.new .ChatMessage 9 []) demoSt 0).2.2.2.2
     (addrB, GamePacket.new .Heartbeat 0 []) (by decide)⟩

/-- Witness for C8 at a concrete packet. -/
theorem deserialize_serialize_witness :
    GamePacket.deserialize
        (GamePacket.serialize
          { msg_type := .ChatMessage, version := 1, seq_num := 70000, payload := [7, 8] })
      = some { msg_type := .ChatMessage, version := 1, seq_num := 70000, payload := [7, 8] } :=
  deserialize_serialize _ (by decide) (by decide)

end GameUdp
